import Mathlib

/-!
Shallow embedding of `src/vector.h`: a copy-on-write dynamic array
(`vector<T>::bigvector`, here the `bv*` operations over an explicit heap of
reference-counted storage blocks) wrapped in a small-size facade
(`std::variant<std::monostate, T, bigvector>`, here `Rep`).

Heap blocks model `operator new` allocations of `storage` (header
`size_`/`capacity_`/`ref_count` plus `capacity` raw slots).  Freshly allocated
header fields and element slots are uninitialized (`none`); reading an
uninitialized field or slot, touching a freed block, or dereferencing a null
`store` is undefined behavior and surfaces as `Err.ub`.  Placement-new and raw
assignment into a slot are both modelled as writing the slot (the machine
behavior for trivially copyable element types).  Exceptions thrown by the
element type's copy operations are modelled by a copy function `Cp` that may
fail; a failed copy surfaces as `Err.elemThrow` unless a `catch (...)` in the
source handles it.
-/

namespace CowVec

/-- Outcomes other than normal return: the C++ exceptions thrown by the code
(`rangeErr` for the out-of-range `runtime_error`, `popEmpty` for the empty
`pop_back` `runtime_error`, `badVariant` for `std::bad_variant_access`,
`elemThrow` for a throwing element copy) and `ub` for undefined behavior. -/
inductive Err where
  | rangeErr
  | popEmpty
  | badVariant
  | elemThrow
  | ub
deriving Repr, DecidableEq

/-- `vector<T>::bigvector::storage`: header fields plus `capacity` element
slots.  `none` in a header field or slot means uninitialized memory. -/
structure Storage (α : Type) where
  sizeF : Option Nat
  capF : Option Nat
  refF : Option Nat
  data : List (Option α)
deriving Repr, DecidableEq

/-- The heap: block ids are list indices; `none` marks a freed block. -/
abbrev Heap (α : Type) := List (Option (Storage α))

/-- Element copy behavior: `none` means the copy constructor / copy assignment
of the element type throws on this value. -/
abbrev Cp (α : Type) := α → Option α

/-- A copy that never throws (plain value types such as `int`). -/
def cpId {α : Type} : Cp α := fun x => some x

/-- Perform one element copy; a throwing copy surfaces as `elemThrow`. -/
def doCp {α : Type} (cp : Cp α) (x : α) : Except Err α :=
  match cp x with
  | some y => Except.ok y
  | none => Except.error Err.elemThrow

/-- Dereference a block pointer; freed or out-of-heap blocks are UB. -/
def getBlk {α : Type} (h : Heap α) (b : Nat) : Except Err (Storage α) :=
  match h[b]? with
  | some (some s) => Except.ok s
  | _ => Except.error Err.ub

/-- Overwrite a block in the heap. -/
def setBlk {α : Type} (h : Heap α) (b : Nat) (s : Storage α) : Heap α :=
  h.set b (some s)

/-- `operator delete` on a block. -/
def freeBlk {α : Type} (h : Heap α) (b : Nat) : Heap α :=
  h.set b none

/-- `make_storage(cp)`: a fresh block with uninitialized header and `cp`
uninitialized slots; returns the new heap and the block id. -/
def alloc {α : Type} (h : Heap α) (cap : Nat) : Heap α × Nat :=
  (h ++ [some ⟨none, none, none, List.replicate cap none⟩], h.length)

/-- Read a header field; uninitialized is UB. -/
def readField : Option Nat → Except Err Nat
  | some n => Except.ok n
  | none => Except.error Err.ub

/-- Read `store->size_` of block `b`. -/
def readSizeB {α : Type} (h : Heap α) (b : Nat) : Except Err Nat := do
  readField (← getBlk h b).sizeF

/-- Read `store->capacity_` of block `b`. -/
def readCapB {α : Type} (h : Heap α) (b : Nat) : Except Err Nat := do
  readField (← getBlk h b).capF

/-- Read `store->ref_count` of block `b`. -/
def readRefB {α : Type} (h : Heap α) (b : Nat) : Except Err Nat := do
  readField (← getBlk h b).refF

/-- Write `store->ref_count` of block `b`. -/
def setRefE {α : Type} (h : Heap α) (b : Nat) (r : Nat) : Except Err (Heap α) := do
  let s ← getBlk h b
  Except.ok (setBlk h b ⟨s.sizeF, s.capF, some r, s.data⟩)

/-- Set all three header fields of block `b` (used where the source assigns
`tmp->size_`, `tmp->capacity_`, `tmp->ref_count` in sequence). -/
def setHeaderB {α : Type} (h : Heap α) (b : Nat) (sz cap rc : Nat) :
    Except Err (Heap α) := do
  let s ← getBlk h b
  Except.ok (setBlk h b ⟨some sz, some cap, some rc, s.data⟩)

/-- Read one element slot; uninitialized or out-of-bounds is UB. -/
def readSlot {α : Type} (s : Storage α) (i : Nat) : Except Err α :=
  match s.data[i]? with
  | some (some x) => Except.ok x
  | _ => Except.error Err.ub

/-- Construct (or assign) an element into slot `i`; out of bounds is UB. -/
def writeSlot {α : Type} (s : Storage α) (i : Nat) (x : α) : Except Err (Storage α) :=
  if i < s.data.length then Except.ok ⟨s.sizeF, s.capF, s.refF, s.data.set i (some x)⟩
  else Except.error Err.ub

/-- Destroy the element in slot `i` (the slot becomes uninitialized);
destroying a slot that holds no live element is UB. -/
def destroySlot {α : Type} (s : Storage α) (i : Nat) : Except Err (Storage α) :=
  match s.data[i]? with
  | some (some _) => Except.ok ⟨s.sizeF, s.capF, s.refF, s.data.set i none⟩
  | _ => Except.error Err.ub

/-- Read `len` consecutive live elements starting at slot `lo`. -/
def readRangeS {α : Type} (s : Storage α) (lo : Nat) : Nat → Except Err (List α)
  | 0 => Except.ok []
  | n + 1 => do
    let x ← readSlot s lo
    let xs ← readRangeS s (lo + 1) n
    Except.ok (x :: xs)

/-- Write the elements of `xs` into consecutive slots starting at `d`. -/
def writeRangeS {α : Type} (s : Storage α) (d : Nat) : List α → Except Err (Storage α)
  | [] => Except.ok s
  | x :: xs => do
    let s1 ← writeSlot s d x
    writeRangeS s1 (d + 1) xs

/-- `std::destroy` over `len` slots starting at `lo`. -/
def destroyRangeS {α : Type} (s : Storage α) (lo : Nat) : Nat → Except Err (Storage α)
  | 0 => Except.ok s
  | n + 1 => do
    let s1 ← destroySlot s lo
    destroyRangeS s1 (lo + 1) n

/-- Apply `cp` to the elements of a list until the first throwing copy:
returns the successfully copied prefix and whether a copy threw. -/
def cpUpTo {α : Type} (cp : Cp α) : List α → List α × Bool
  | [] => ([], false)
  | x :: xs =>
    match cp x with
    | none => ([], true)
    | some y =>
      let p := cpUpTo cp xs
      (y :: p.1, p.2)

/-- `std::uninitialized_copy` (also used for `std::fill_n`, whose element
assignments behave identically on trivially copyable slots) of `src` into
slots starting at `d`: copies element by element; if a copy throws the already
constructed elements are torn down by the algorithm and the exception
propagates (the post-throw slot states are never observed by the claims, so
only the error is returned). -/
def uCopy {α : Type} (cp : Cp α) (s : Storage α) (d : Nat) (src : List α) :
    Except Err (Storage α) :=
  let p := cpUpTo cp src
  match writeRangeS s d p.1 with
  | Except.error e => Except.error e
  | Except.ok s1 => if p.2 then Except.error Err.elemThrow else Except.ok s1

/-- `vector<T>::bigvector`: a (possibly null) pointer to a storage block. -/
structure BV where
  store : Option Nat
deriving Repr, DecidableEq

/-- `bigvector::size()`: `store ? store->size_ : 0`. -/
def bvSize {α : Type} (h : Heap α) (bv : BV) : Except Err Nat :=
  match bv.store with
  | none => Except.ok 0
  | some b => readSizeB h b

/-- `bigvector::capacity()`: `store ? store->capacity_ : 0`. -/
def bvCapacity {α : Type} (h : Heap α) (bv : BV) : Except Err Nat :=
  match bv.store with
  | none => Except.ok 0
  | some b => readCapB h b

/-- The live element range `[begin(), end())` of a bigvector: empty for a null
`store`, otherwise the first `store->size_` slots (reading `end()` reads
`store->size_`). -/
def bvReadAll {α : Type} (h : Heap α) (bv : BV) : Except Err (List α) :=
  match bv.store with
  | none => Except.ok []
  | some b => do
    let sz ← readSizeB h b
    let s ← getBlk h b
    readRangeS s 0 sz

/-- `bigvector::unique_copy()`: return if the block is absent or solely owned;
otherwise clone the block at the same capacity, drop one reference from the
old block and adopt the clone. -/
def bvUniqueCopy {α : Type} (cp : Cp α) (h : Heap α) (bv : BV) :
    Except Err (Heap α × BV) :=
  match bv.store with
  | none => Except.ok (h, bv)
  | some b => do
    let rc ← readRefB h b
    if rc = 1 then Except.ok (h, bv)
    else do
      let cap ← readCapB h b
      let al := alloc h cap
      let src ← bvReadAll al.1 ⟨some b⟩
      let st ← getBlk al.1 al.2
      match uCopy cp st 0 src with
      | Except.error e => Except.error e
      | Except.ok st1 => do
        let sz ← readSizeB al.1 b
        let h2 := setBlk al.1 al.2 ⟨some sz, some cap, some 1, st1.data⟩
        let h3 ← setRefE h2 b (rc - 1)
        Except.ok (h3, ⟨some al.2⟩)

/-- `bigvector::push_back`: grow (capacity 2 on first growth, doubling after)
or clone when shared; otherwise construct in place at `store->data + size_`. -/
def bvPushBack {α : Type} (cp : Cp α) (h : Heap α) (bv : BV) (x : α) :
    Except Err (Heap α × BV) := do
  let sz ← bvSize h bv
  let cap ← bvCapacity h bv
  let cond ← if sz = cap then Except.ok true
    else match bv.store with
      | none => Except.ok false
      | some b => do
        let rc ← readRefB h b
        Except.ok (decide (rc > 1))
  if cond then do
    let capNeeded := if sz = cap then (if cap > 0 then cap * 2 else 2) else cap
    let al := alloc h capNeeded
    let src ← bvReadAll al.1 bv
    let st ← getBlk al.1 al.2
    match uCopy cp st 0 src with
    | Except.error e => Except.error e
    | Except.ok st1 => do
      let x1 ← doCp cp x
      let st2 ← writeSlot st1 sz x1
      let newSz ← match bv.store with
        | none => Except.ok 1
        | some b => do
          let szb ← readSizeB al.1 b
          Except.ok (szb + 1)
      let h2 := setBlk al.1 al.2 ⟨some newSz, some capNeeded, some 1, st2.data⟩
      let h3 ← match bv.store with
        | none => Except.ok h2
        | some b => do
          let rc ← readRefB h2 b
          if rc = 1 then do
            let _ ← readSizeB h2 b
            Except.ok (freeBlk h2 b)
          else setRefE h2 b (rc - 1)
      Except.ok (h3, ⟨some al.2⟩)
  else
    match bv.store with
    | none => Except.error Err.ub
    | some b => do
      let s ← getBlk h b
      let x1 ← doCp cp x
      let s1 ← writeSlot s sz x1
      Except.ok (setBlk h b ⟨some (sz + 1), s1.capF, s1.refF, s1.data⟩, bv)

/-- `bigvector::pop_back`: `unique_copy()` then
`std::destroy_at(store->data + (--store->size_))`; with a null `store` or size
0 the pointer arithmetic is out of bounds (UB).  Never checks for emptiness. -/
def bvPopBack {α : Type} (cp : Cp α) (h : Heap α) (bv : BV) :
    Except Err (Heap α × BV) := do
  let p ← bvUniqueCopy cp h bv
  match p.2.store with
  | none => Except.error Err.ub
  | some b => do
    let sz ← readSizeB p.1 b
    if sz = 0 then Except.error Err.ub
    else do
      let s ← getBlk p.1 b
      let s1 ← destroySlot ⟨some (sz - 1), s.capF, s.refF, s.data⟩ (sz - 1)
      Except.ok (setBlk p.1 b s1, p.2)

/-- `bigvector::reserve`: no-op when `cap <= capacity()`; otherwise a new
block of exactly `cap` slots, elements copied over, old reference dropped. -/
def bvReserve {α : Type} (cp : Cp α) (h : Heap α) (bv : BV) (n : Nat) :
    Except Err (Heap α × BV) := do
  let c ← bvCapacity h bv
  if n ≤ c then Except.ok (h, bv)
  else do
    let al := alloc h n
    let src ← bvReadAll al.1 bv
    let st ← getBlk al.1 al.2
    match uCopy cp st 0 src with
    | Except.error e => Except.error e
    | Except.ok st1 =>
      match bv.store with
      | none => Except.ok (setBlk al.1 al.2 ⟨some 0, some n, some 1, st1.data⟩, ⟨some al.2⟩)
      | some b => do
        let sz ← readSizeB al.1 b
        let rc ← readRefB al.1 b
        let h2 ← if rc = 1 then do
            let _ ← readSizeB al.1 b
            Except.ok (freeBlk al.1 b)
          else setRefE al.1 b (rc - 1)
        Except.ok (setBlk h2 al.2 ⟨some sz, some n, some 1, st1.data⟩, ⟨some al.2⟩)

/-- `bigvector::shrink_to_fit`: no-op when `size() == capacity()`.  When
`size() == 0` with a solely owned block the block is deleted but `store` is
left dangling (the source omits `store = nullptr` in this branch); with a
shared block one reference is dropped and `store` becomes null.  Otherwise a
new exactly-sized block replaces the old one. -/
def bvShrink {α : Type} (cp : Cp α) (h : Heap α) (bv : BV) :
    Except Err (Heap α × BV) := do
  let sz ← bvSize h bv
  let cap ← bvCapacity h bv
  if sz = cap then Except.ok (h, bv)
  else match bv.store with
    | none => Except.error Err.ub
    | some b =>
      if sz = 0 then do
        let rc ← readRefB h b
        if rc = 1 then Except.ok (freeBlk h b, bv)
        else do
          let h2 ← setRefE h b (rc - 1)
          Except.ok (h2, ⟨none⟩)
      else do
        let al := alloc h sz
        let src ← bvReadAll al.1 bv
        let st ← getBlk al.1 al.2
        match uCopy cp st 0 src with
        | Except.error e => Except.error e
        | Except.ok st1 => do
          let h2 := setBlk al.1 al.2 ⟨some sz, some sz, some 1, st1.data⟩
          let rc ← readRefB h2 b
          let h3 ← if rc = 1 then do
              let _ ← readSizeB h2 b
              Except.ok (freeBlk h2 b)
            else setRefE h2 b (rc - 1)
          Except.ok (h3, ⟨some al.2⟩)

/-- `bigvector::shorten` (private): truncate to `sz` elements; in place when
solely owned, otherwise into a same-capacity clone. -/
def bvShorten {α : Type} (cp : Cp α) (h : Heap α) (bv : BV) (sz : Nat) :
    Except Err (Heap α × BV) := do
  let sz0 ← bvSize h bv
  if sz = sz0 then Except.ok (h, bv)
  else match bv.store with
    | none => Except.error Err.ub
    | some b => do
      let rc ← readRefB h b
      if rc = 1 then do
        let s ← getBlk h b
        let s1 ← destroyRangeS s sz (sz0 - sz)
        Except.ok (setBlk h b ⟨some sz, s1.capF, s1.refF, s1.data⟩, bv)
      else do
        let cap ← readCapB h b
        let al := alloc h cap
        let s ← getBlk al.1 b
        let src ← readRangeS s 0 sz
        let st ← getBlk al.1 al.2
        match uCopy cp st 0 src with
        | Except.error e => Except.error e
        | Except.ok st1 => do
          let h2 := setBlk al.1 al.2 ⟨some sz, some cap, some 1, st1.data⟩
          let h3 ← setRefE h2 b (rc - 1)
          Except.ok (h3, ⟨some al.2⟩)

/-- `bigvector::resize_job` (private): for `sz > size()`, grow to capacity
`max(capacity(), sz)` when needed (also cloning when shared), filling the new
slots with `elem`; the catch around the fill deletes the fresh block but does
not rethrow, so execution continues into the freed block's header (UB). -/
def bvResizeJob {α : Type} (cp : Cp α) (h : Heap α) (bv : BV) (sz : Nat) (elem : α) :
    Except Err (Heap α × BV) := do
  let cap ← bvCapacity h bv
  let newCap := max cap sz
  let needNew ← match bv.store with
    | none => Except.ok true
    | some b =>
      if newCap > cap then Except.ok true
      else do
        let rc ← readRefB h b
        Except.ok (decide (rc > 1))
  if needNew then do
    let al := alloc h newCap
    let src ← bvReadAll al.1 bv
    let st ← getBlk al.1 al.2
    match uCopy cp st 0 src with
    | Except.error e => Except.error e
    | Except.ok st1 => do
      let sz0 ← bvSize al.1 bv
      let h2 ← match uCopy cp st1 sz0 (List.replicate (sz - sz0) elem) with
        | Except.error Err.ub => Except.error Err.ub
        | Except.error _ => Except.ok (freeBlk al.1 al.2)
        | Except.ok st2 => Except.ok (setBlk al.1 al.2 st2)
      let h3 ← setHeaderB h2 al.2 sz newCap 1
      let h4 ← match bv.store with
        | none => Except.ok h3
        | some b => do
          let rc ← readRefB h3 b
          if rc = 1 then do
            let _ ← readSizeB h3 b
            Except.ok (freeBlk h3 b)
          else setRefE h3 b (rc - 1)
      Except.ok (h4, ⟨some al.2⟩)
  else match bv.store with
    | none => Except.error Err.ub
    | some b => do
      let s ← getBlk h b
      let sz0 ← readField s.sizeF
      let s1 ← uCopy cp s sz0 (List.replicate (sz - sz0) elem)
      Except.ok (setBlk h b ⟨some sz, s1.capF, s1.refF, s1.data⟩, bv)

/-- `bigvector::resize(sz, elem)`: truncate via `shorten` or grow via
`resize_job`. -/
def bvResize {α : Type} (cp : Cp α) (h : Heap α) (bv : BV) (sz : Nat) (elem : α) :
    Except Err (Heap α × BV) := do
  let sz0 ← bvSize h bv
  if sz ≤ sz0 then bvShorten cp h bv sz
  else bvResizeJob cp h bv sz elem

/-- `bigvector::clear()`.  As written the source calls `resize(0)`, which is
ill-formed (`bigvector::resize` requires a fill argument); for `sz = 0` the
call `resize(0, e)` reaches `shorten(0)` for every `e`, so the evident intent
is modelled as `shorten 0`. -/
def bvClear {α : Type} (cp : Cp α) (h : Heap α) (bv : BV) :
    Except Err (Heap α × BV) :=
  bvShorten cp h bv 0

/-- `bigvector::erase(beg, en)` with `beg`/`en` given as element indices `l`
and `r`.  Empty range: no-op.  Suffix erase: `unique_copy` then destroy the
tail in place.  Interior erase on a shared block: the source's clone path —
its first catch swallows the exception without rethrowing, and the tail is
copied into `store->data + left` (the still-shared old block) rather than the
fresh block.  Interior erase on a solely owned block: shift the tail left and
destroy the leftover suffix. -/
def bvErase {α : Type} (cp : Cp α) (h : Heap α) (bv : BV) (l r : Nat) :
    Except Err (Heap α × BV) :=
  if l = r then Except.ok (h, bv)
  else match bv.store with
    | none => Except.error Err.ub
    | some b0 => do
      let sz ← readSizeB h b0
      if r = sz then do
        let p ← bvUniqueCopy cp h bv
        match p.2.store with
        | none => Except.error Err.ub
        | some b => do
          if sz < l then Except.error Err.ub
          else do
            let s ← getBlk p.1 b
            let s1 ← destroyRangeS s l (sz - l)
            Except.ok (setBlk p.1 b ⟨some (sz - (r - l)), s1.capF, s1.refF, s1.data⟩, p.2)
      else do
        let rc ← readRefB h b0
        if rc > 1 then do
          let cap ← readCapB h b0
          let al := alloc h cap
          let s0 ← getBlk al.1 b0
          let src1 ← readRangeS s0 0 l
          let h1 ← match (do uCopy cp (← getBlk al.1 al.2) 0 src1) with
            | Except.error Err.ub => Except.error Err.ub
            | Except.error _ => Except.ok (freeBlk al.1 al.2)
            | Except.ok st1 => Except.ok (setBlk al.1 al.2 st1)
          let s0b ← getBlk h1 b0
          let src2 ← readRangeS s0b r (sz - r)
          match uCopy cp s0b l src2 with
          | Except.error e => Except.error e
          | Except.ok sb2 => do
            let h2 := setBlk h1 b0 sb2
            let szb ← readSizeB h2 b0
            let h3 ← setHeaderB h2 al.2 (szb - r + l) cap 1
            let rc2 ← readRefB h3 b0
            let h4 ← if rc2 = 1 then do
                let s2 ← getBlk h3 b0
                let s3 ← destroyRangeS s2 0 szb
                Except.ok (setBlk h3 b0 s3)
              else setRefE h3 b0 (rc2 - 1)
            Except.ok (h4, ⟨some al.2⟩)
        else do
          let s ← getBlk h b0
          let tail ← readRangeS s r (sz - r)
          let s1 ← writeRangeS s l tail
          let s2 ← destroyRangeS s1 (sz - (r - l)) (r - l)
          Except.ok (setBlk h b0 ⟨some (sz - (r - l)), s2.capF, s2.refF, s2.data⟩, ⟨some b0⟩)

/-- `operator==(bigvector const&, bigvector const&)`: pointer-equal blocks
compare equal; otherwise `a.store->size_ != b.store->size_` is read without a
null check, then the elements are compared pairwise. -/
def bvEq {α : Type} [DecidableEq α] (h : Heap α) (x y : BV) : Except Err Bool :=
  if x.store = y.store then Except.ok true
  else do
    let sx ← match x.store with
      | none => (Except.error Err.ub : Except Err Nat)
      | some b => readSizeB h b
    let sy ← match y.store with
      | none => (Except.error Err.ub : Except Err Nat)
      | some b => readSizeB h b
    if sx ≠ sy then Except.ok false
    else do
      let ex ← bvReadAll h x
      let ey ← bvReadAll h y
      Except.ok (decide (ex = ey))

/-- The facade `vector<T>`'s `std::variant<std::monostate, T, bigvector>`. -/
inductive Rep (α : Type) where
  | empty : Rep α
  | single : α → Rep α
  | shared : BV → Rep α
deriving Repr, DecidableEq

/-- `vector::size()`. -/
def sizeV {α : Type} (h : Heap α) : Rep α → Except Err Nat
  | Rep.empty => Except.ok 0
  | Rep.single _ => Except.ok 1
  | Rep.shared bv => bvSize h bv

/-- `vector::capacity()`. -/
def capacityV {α : Type} (h : Heap α) : Rep α → Except Err Nat
  | Rep.empty => Except.ok 0
  | Rep.single _ => Except.ok 1
  | Rep.shared bv => bvCapacity h bv

/-- The observable element sequence `[begin(), end())` of a vector, read
through the const iterators. -/
def seqV {α : Type} (h : Heap α) : Rep α → Except Err (List α)
  | Rep.empty => Except.ok []
  | Rep.single x => Except.ok [x]
  | Rep.shared bv => bvReadAll h bv

/-- The copy constructor `vector(vector const&) = default`: copies the
variant; the `bigvector` alternative shares the block and bumps its
reference count. -/
def copyV {α : Type} (cp : Cp α) (h : Heap α) : Rep α → Except Err (Heap α × Rep α)
  | Rep.empty => Except.ok (h, Rep.empty)
  | Rep.single x => do
    let y ← doCp cp x
    Except.ok (h, Rep.single y)
  | Rep.shared bv =>
    match bv.store with
    | none => Except.ok (h, Rep.shared bv)
    | some b => do
      let rc ← readRefB h b
      let h1 ← setRefE h b (rc + 1)
      Except.ok (h1, Rep.shared bv)

/-- `~bigvector()`: drop one reference; on the last one destroy the live
elements and delete the block. -/
def destroyBV {α : Type} (h : Heap α) (bv : BV) : Except Err (Heap α) :=
  match bv.store with
  | none => Except.ok h
  | some b => do
    let rc ← readRefB h b
    if rc > 1 then setRefE h b (rc - 1)
    else do
      let _ ← readSizeB h b
      Except.ok (freeBlk h b)

/-- `vector::push_back`: Empty becomes Single; Single promotes through a fresh
`bigvector` seeded with the inline element; Shared delegates. -/
def pushBackV {α : Type} (cp : Cp α) (h : Heap α) (v : Rep α) (x : α) :
    Except Err (Heap α × Rep α) :=
  match v with
  | Rep.empty => do
    let y ← doCp cp x
    Except.ok (h, Rep.single y)
  | Rep.single y => do
    let p1 ← bvPushBack cp h ⟨none⟩ y
    let p2 ← bvPushBack cp p1.1 p1.2 x
    Except.ok (p2.1, Rep.shared p2.2)
  | Rep.shared bv => do
    let p ← bvPushBack cp h bv x
    Except.ok (p.1, Rep.shared p.2)

/-- `vector::pop_back`: throws on the Empty variant; Single becomes Empty;
Shared delegates (no emptiness check there). -/
def popBackV {α : Type} (cp : Cp α) (h : Heap α) (v : Rep α) :
    Except Err (Heap α × Rep α) :=
  match v with
  | Rep.empty => Except.error Err.popEmpty
  | Rep.single _ => Except.ok (h, Rep.empty)
  | Rep.shared bv => do
    let p ← bvPopBack cp h bv
    Except.ok (p.1, Rep.shared p.2)

/-- `vector::operator[] const`: on the Single variant the index is ignored and
the inline element returned; on the Empty variant `std::get<2>` throws
`bad_variant_access`; on Shared the bounds check `store && index >= size_`
passes a null `store` straight to a null dereference. -/
def atIdxV {α : Type} (h : Heap α) (v : Rep α) (i : Nat) : Except Err α :=
  match v with
  | Rep.single y => Except.ok y
  | Rep.empty => Except.error Err.badVariant
  | Rep.shared bv =>
    match bv.store with
    | none => Except.error Err.ub
    | some b => do
      let sz ← readSizeB h b
      if i ≥ sz then Except.error Err.rangeErr
      else do
        let s ← getBlk h b
        readSlot s i

/-- `vector::reserve`: Empty with `cap == 0` and Single with `cap < 1` are
no-ops; otherwise Empty/Single promote through a fresh `bigvector` (seeded
with the inline element if present) and Shared delegates. -/
def reserveV {α : Type} (cp : Cp α) (h : Heap α) (v : Rep α) (n : Nat) :
    Except Err (Heap α × Rep α) :=
  match v with
  | Rep.empty =>
    if n = 0 then Except.ok (h, v)
    else do
      let p ← bvReserve cp h ⟨none⟩ n
      Except.ok (p.1, Rep.shared p.2)
  | Rep.single y =>
    if n < 1 then Except.ok (h, v)
    else do
      let p1 ← bvPushBack cp h ⟨none⟩ y
      let p2 ← bvReserve cp p1.1 p1.2 n
      Except.ok (p2.1, Rep.shared p2.2)
  | Rep.shared bv => do
    let p ← bvReserve cp h bv n
    Except.ok (p.1, Rep.shared p.2)

/-- `vector::shrink_to_fit`: no-op unless the Shared variant is active. -/
def shrinkV {α : Type} (cp : Cp α) (h : Heap α) (v : Rep α) :
    Except Err (Heap α × Rep α) :=
  match v with
  | Rep.shared bv => do
    let p ← bvShrink cp h bv
    Except.ok (p.1, Rep.shared p.2)
  | w => Except.ok (h, w)

/-- `vector::resize_job` (private, backing both `resize` overloads): Empty and
Single handle target sizes 0 and 1 inline and promote otherwise; Shared
delegates. -/
def resizeV {α : Type} (cp : Cp α) (h : Heap α) (v : Rep α) (sz : Nat) (elem : α) :
    Except Err (Heap α × Rep α) :=
  match v with
  | Rep.empty =>
    if sz = 0 then Except.ok (h, v)
    else if sz = 1 then do
      let y ← doCp cp elem
      Except.ok (h, Rep.single y)
    else do
      let p ← bvResize cp h ⟨none⟩ sz elem
      Except.ok (p.1, Rep.shared p.2)
  | Rep.single y =>
    if sz = 0 then Except.ok (h, Rep.empty)
    else if sz = 1 then Except.ok (h, v)
    else do
      let p1 ← bvPushBack cp h ⟨none⟩ y
      let p2 ← bvResize cp p1.1 p1.2 sz elem
      Except.ok (p2.1, Rep.shared p2.2)
  | Rep.shared bv => do
    let p ← bvResize cp h bv sz elem
    Except.ok (p.1, Rep.shared p.2)

/-- `vector::erase(beg, en)` with iterators as element indices: empty range is
a no-op, any nonempty range on Single resets to Empty, a nonempty range on
Empty hits `std::get<2>` (`bad_variant_access`), Shared delegates. -/
def eraseV {α : Type} (cp : Cp α) (h : Heap α) (v : Rep α) (l r : Nat) :
    Except Err (Heap α × Rep α) :=
  if l = r then Except.ok (h, v)
  else match v with
    | Rep.single _ => Except.ok (h, Rep.empty)
    | Rep.empty => Except.error Err.badVariant
    | Rep.shared bv => do
      let p ← bvErase cp h bv l r
      Except.ok (p.1, Rep.shared p.2)

/-- `vector::clear`: Empty/Single reset to Empty; Shared delegates to
`bigvector::clear` (see `bvClear` for the ill-formedness of that call as
written). -/
def clearV {α : Type} (cp : Cp α) (h : Heap α) (v : Rep α) :
    Except Err (Heap α × Rep α) :=
  match v with
  | Rep.shared bv => do
    let p ← bvClear cp h bv
    Except.ok (p.1, Rep.shared p.2)
  | _ => Except.ok (h, Rep.empty)

/-- The range constructor `vector(InputIterator beg, InputIterator en)`, the
range given as the list of its elements: length 0 stays Empty, length 1
copies into Single, length above 1 constructs a `bigvector` whose range
constructor allocates and then copies from its own `begin()`/`end()` —
`end()` reads the uninitialized `size_` of the fresh block (UB); the header
fields are never set. -/
def fromRangeV {α : Type} (cp : Cp α) (h : Heap α) : List α → Except Err (Heap α × Rep α)
  | [] => Except.ok (h, Rep.empty)
  | [x] => do
    let y ← doCp cp x
    Except.ok (h, Rep.single y)
  | _ :: _ :: rest => do
    let al := alloc h (rest.length + 2)
    let _ ← readSizeB al.1 al.2
    Except.error Err.ub

/-- `bigvector::operator=` (copy assignment): pointer-equal stores return
early; otherwise a non-null `store` is destroyed and deleted with no
reference-count check, while a null `store` has its `ref_count` decremented
through the null pointer (the source's branches are inverted). -/
def bvAssignOp {α : Type} (h : Heap α) (dst src : BV) : Except Err (Heap α × BV) :=
  if dst.store = src.store then Except.ok (h, dst)
  else do
    let h1 ← match dst.store with
      | some b => do
        let _ ← readSizeB h b
        Except.ok (freeBlk h b)
      | none => Except.error Err.ub
    match src.store with
    | some b2 => do
      let rc ← readRefB h1 b2
      let h2 ← setRefE h1 b2 (rc + 1)
      Except.ok (h2, ⟨src.store⟩)
    | none => Except.ok (h1, ⟨none⟩)

/-- `vector::assign(beg, en)`: `*this = vector(beg, en)` — a temporary is
range-constructed, copy-assigned into the variant (destroying or releasing
the old alternative; two `bigvector` alternatives go through the flawed
`bigvector::operator=`), and destroyed. -/
def assignV {α : Type} (cp : Cp α) (h : Heap α) (v : Rep α) (xs : List α) :
    Except Err (Heap α × Rep α) := do
  let p ← fromRangeV cp h xs
  match v, p.2 with
  | Rep.shared bv, Rep.shared bw => do
    let q ← bvAssignOp p.1 bv bw
    let h2 ← destroyBV q.1 bw
    Except.ok (h2, Rep.shared q.2)
  | Rep.shared bv, Rep.empty => do
    let h1 ← destroyBV p.1 bv
    Except.ok (h1, Rep.empty)
  | Rep.shared bv, Rep.single y => do
    let h1 ← destroyBV p.1 bv
    let z ← doCp cp y
    Except.ok (h1, Rep.single z)
  | _, Rep.shared bw => do
    let rc ← match bw.store with
      | none => Except.ok 0
      | some b => readRefB p.1 b
    let h1 ← match bw.store with
      | none => Except.ok p.1
      | some b => setRefE p.1 b rc
    Except.ok (h1, Rep.shared bw)
  | _, Rep.empty => Except.ok (p.1, Rep.empty)
  | _, Rep.single y => do
    let z ← doCp cp y
    Except.ok (p.1, Rep.single z)

/-- `operator==(vector const&, vector const&)`: two Shared variants delegate
to `bigvector::operator==`; every other combination compares the two
observable sequences with `std::equal`. -/
def eqV {α : Type} [DecidableEq α] (h : Heap α) (a b : Rep α) : Except Err Bool :=
  match a, b with
  | Rep.shared x, Rep.shared y => bvEq h x y
  | x, y => do
    let ex ← seqV h x
    let ey ← seqV h y
    Except.ok (decide (ex = ey))

/-- Fold a list of pushes over a starting heap and representation. -/
def pushSeqFrom (h : Heap Nat) (v : Rep Nat) : List Nat → Except Err (Heap Nat × Rep Nat)
  | [] => Except.ok (h, v)
  | x :: xs => do
    let p ← pushBackV cpId h v x
    pushSeqFrom p.1 p.2 xs

/-- Build a vector by `push_back`ing the given elements onto a fresh one. -/
def pushSeq (xs : List Nat) : Except Err (Heap Nat × Rep Nat) :=
  pushSeqFrom [] Rep.empty xs

/-- An element type whose copy constructor throws on the value 99. -/
def cpBad : Cp Nat := fun n => if n = 99 then none else some n

/-- The number of `push_back(0)` calls applied to a fresh vector. -/
def pushes : Nat → Except Err (Heap Nat × Rep Nat)
  | 0 => Except.ok ([], Rep.empty)
  | n + 1 => do
    let p ← pushes n
    pushBackV cpId p.1 p.2 0

/-- `capacity()` after `n` pushes onto a fresh vector. -/
def capAfter (n : Nat) : Except Err Nat := do
  let p ← pushes n
  capacityV p.1 p.2

/-- A one-block heap holding the solely owned sequence `[1, 2]` at full
capacity (the state `pushSeq [1, 2]` reaches), used to instantiate the
universally quantified theorems at a concrete input. -/
def hW : Heap Nat := [some ⟨some 2, some 2, some 1, [some 1, some 2]⟩]

/-- The bigvector of `hW`'s vector: a pointer to block 0. -/
def bvW : BV := ⟨some 0⟩

/-- A fully initialized block holding the elements `xs` in a capacity-`cap`
allocation with reference count `rc` — the shape of every block the public
operations build. -/
def mkBlk (xs : List Nat) (cap rc : Nat) : Storage Nat :=
  ⟨some xs.length, some cap, some rc, xs.map some ++ List.replicate (cap - xs.length) none⟩

/-- The solely owned live block holding `n` copies of `0` in a capacity-`c`
allocation (the shape reached by pure pushes). -/
def liveBlk (n c : Nat) : Storage Nat :=
  mkBlk (List.replicate n 0) c 1

/-! Helper lemmas about the heap and block primitives. -/

theorem list_get_append_len {β : Type} (l : List β) (a : β) (rest : List β) :
    (l ++ a :: rest)[l.length]? = some a := by
  induction l with
  | nil => simp
  | cons x xs ih => simpa using ih

theorem list_set_append_len {β : Type} (l : List β) (a b : β) (rest : List β) :
    (l ++ a :: rest).set l.length b = l ++ b :: rest := by
  induction l with
  | nil => rfl
  | cons x xs ih => simp [ih]

theorem getBlk_middle {α : Type} (pre : Heap α) (s : Storage α) (post : Heap α) :
    getBlk (pre ++ some s :: post) pre.length = Except.ok s := by
  simp only [getBlk, list_get_append_len]

theorem setBlk_middle {α : Type} (pre : Heap α) (a : Option (Storage α)) (post : Heap α)
    (s : Storage α) : setBlk (pre ++ a :: post) pre.length s = pre ++ some s :: post := by
  simp only [setBlk, list_set_append_len]

theorem freeBlk_middle {α : Type} (pre : Heap α) (a : Option (Storage α)) (post : Heap α) :
    freeBlk (pre ++ a :: post) pre.length = pre ++ none :: post := by
  simp only [freeBlk, list_set_append_len]

theorem bindOk {β γ : Type} (a : β) (f : β → Except Err γ) :
    (Except.ok a : Except Err β) >>= f = f a := rfl

theorem bindErr {β γ : Type} (e : Err) (f : β → Except Err γ) :
    (Except.error e : Except Err β) >>= f = Except.error e := rfl

theorem cpUpTo_id {α : Type} (xs : List α) : cpUpTo cpId xs = (xs, false) := by
  induction xs with
  | nil => rfl
  | cons x t ih => simp [cpUpTo, cpId, ih]

theorem readRangeS_map_some {α : Type} (f1 f2 f3 : Option Nat) (xs : List α)
    (pre rest : List (Option α)) :
    readRangeS ⟨f1, f2, f3, pre ++ (xs.map some ++ rest)⟩ pre.length xs.length
      = Except.ok xs := by
  induction xs generalizing pre with
  | nil => rfl
  | cons x t ih =>
    have hsl : readSlot ⟨f1, f2, f3, pre ++ (some x :: (t.map some ++ rest))⟩ pre.length
        = Except.ok x := by
      simp only [readSlot, list_get_append_len]
    have hrec := ih (pre ++ [some x])
    rw [List.append_assoc] at hrec
    simp only [List.length_append, List.length_cons, List.length_nil,
      List.singleton_append] at hrec
    simp only [List.map_cons, List.cons_append, List.length_cons, readRangeS]
    rw [hsl, bindOk, hrec, bindOk]

theorem writeRangeS_shape {α : Type} (f1 f2 f3 : Option Nat) (ys : List α) (xs : List α)
    (k : Nat) (hk : ys.length ≤ k) :
    writeRangeS ⟨f1, f2, f3, xs.map some ++ List.replicate k none⟩ xs.length ys
      = Except.ok ⟨f1, f2, f3, (xs ++ ys).map some ++ List.replicate (k - ys.length) none⟩ := by
  induction ys generalizing xs k with
  | nil => simp [writeRangeS]
  | cons y t ih =>
    have hk1 : t.length + 1 ≤ k := by simpa using hk
    obtain ⟨k1, rfl⟩ : ∃ k1, k = k1 + 1 := ⟨k - 1, by omega⟩
    have hlen : xs.length < (xs.map some ++ List.replicate (k1 + 1) (none : Option α)).length := by
      simp
    have hset : (xs.map some ++ List.replicate (k1 + 1) (none : Option α)).set xs.length (some y)
        = (xs ++ [y]).map some ++ List.replicate k1 none := by
      rw [List.replicate_succ]
      simp
    have hws : writeSlot ⟨f1, f2, f3, xs.map some ++ List.replicate (k1 + 1) none⟩ xs.length y
        = Except.ok ⟨f1, f2, f3, (xs ++ [y]).map some ++ List.replicate k1 none⟩ := by
      simp [writeSlot, hlen, hset]
    have hrec := ih (xs ++ [y]) k1 (by omega)
    simp only [List.length_append, List.length_cons, List.length_nil] at hrec
    simp only [writeRangeS, hws, bindOk]
    simp only [List.append_assoc, List.singleton_append] at hrec
    have hsub : k1 - t.length = k1 + 1 - (t.length + 1) := by omega
    rw [hrec] at *
    simp only [List.length_cons]
    rw [← hsub]

theorem writeSlot_shape {α : Type} (f1 f2 f3 : Option Nat) (xs : List α) (k : Nat)
    (hk : 1 ≤ k) (v : α) :
    writeSlot ⟨f1, f2, f3, xs.map some ++ List.replicate k none⟩ xs.length v
      = Except.ok ⟨f1, f2, f3, (xs ++ [v]).map some ++ List.replicate (k - 1) none⟩ := by
  obtain ⟨k1, rfl⟩ : ∃ k1, k = k1 + 1 := ⟨k - 1, by omega⟩
  have hlen : xs.length < (xs.map some ++ List.replicate (k1 + 1) (none : Option α)).length := by
    simp
  have hset : (xs.map some ++ List.replicate (k1 + 1) (none : Option α)).set xs.length (some v)
      = (xs ++ [v]).map some ++ List.replicate k1 none := by
    rw [List.replicate_succ]
    simp
  simp [writeSlot, hlen, hset]

theorem uCopy_id {α : Type} (s : Storage α) (d : Nat) (xs : List α) :
    uCopy cpId s d xs = writeRangeS s d xs := by
  simp only [uCopy, cpUpTo_id]
  cases h : writeRangeS s d xs <;> simp [h]

/-! The claims. -/

/-- Claim C1.  The claim states COW isolation: after `auto b = a;`, `a == b`
holds and no mutation of `b` ever changes `a`'s observable sequence.  The
first conjunct confirms `a == b` after the copy; the second exhibits the
violation: on `a = [1,2,3,4]` shared with copy `b`, the interior
`b.erase(begin()+1, begin()+3)` takes the shared-block clone path, which
copies the tail into `store->data + left` — the still-shared block — so `a`'s
observable sequence becomes `[1,4,3,4]`. -/
theorem C1_erase_mutates_cow_sibling :
    (do
      let p ← pushSeq [1, 2, 3, 4]
      let q ← copyV cpId p.1 p.2
      eqV q.1 p.2 q.2) = Except.ok true
    ∧ (do
      let p ← pushSeq [1, 2, 3, 4]
      let q ← copyV cpId p.1 p.2
      let r ← eraseV cpId q.1 q.2 1 3
      seqV r.1 p.2) = Except.ok [1, 4, 3, 4] :=
  ⟨rfl, rfl⟩

/-- Claim C2.  The claim states the strong exception guarantee: a throwing
element copy during a mutating operation propagates and leaves the vector
unchanged.  On `a = [99,2,3,4]` shared with copy `b`, where copying the value
`99` throws, `b.erase(begin()+1, begin()+3)` reaches the clone path whose
first catch deletes the fresh block without rethrowing; execution falls
through, mutates the shared block, and then writes the freed block's header —
undefined behavior instead of the propagated `elemThrow` with unchanged
state. -/
theorem C2_erase_swallows_exception :
    (do
      let p ← pushSeq [99, 2, 3, 4]
      let q ← copyV cpId p.1 p.2
      eraseV cpBad q.1 q.2 1 3) = Except.error Err.ub :=
  rfl

/-- Claim C3, counterexample.  The claim says capacities start at 0 and jump
to 2 on the first growth; in fact the first `push_back` on an empty vector
yields the inline Single representation with `capacity() == 1`, which is
neither 0 (unchanged) nor 2 (the claimed first growth). -/
theorem C3_counterexample :
    capAfter 1 = Except.ok 1 ∧ (1 : Nat) ≠ 0 ∧ (1 : Nat) ≠ 2 :=
  ⟨rfl, by decide, by decide⟩

/-- Claim C4.  The claim says every out-of-range indexed access raises an
invalid-access error, and `pop_back` on any empty vector (including a
heap-backed one) raises an invalid-access error.  In fact `operator[]` on the
Single variant ignores the index and returns the inline element (`v = [5]`,
`v[7]` returns 5 with no error), and `pop_back` on a heap-backed vector whose
size has dropped to 0 decrements `size_` past zero and destroys out of bounds
(undefined behavior, no error raised). -/
theorem C4_missing_bounds_checks :
    (do
      let p ← pushSeq [5]
      atIdxV p.1 p.2 7) = Except.ok 5
    ∧ (do
      let p ← pushSeq [1, 2]
      let q ← popBackV cpId p.1 p.2
      let q2 ← popBackV cpId q.1 q.2
      popBackV cpId q2.1 q2.2) = Except.error Err.ub :=
  ⟨rfl, rfl⟩

/-- Claim C5, counterexample.  The claim says no operation, `assign`
included, ever demotes a Shared vector; but `assign` of a 1-element range on
the Shared vector `[1,2]` replaces the representation with the inline Single
variant. -/
theorem C5_counterexample :
    (do
      let p ← pushSeq [1, 2]
      let q ← assignV cpId p.1 p.2 [5]
      Except.ok q.2) = Except.ok (Rep.single 5) :=
  rfl

/-- Claim C6.  The claim says the range constructor yields `size() == n` with
the range's elements.  For ranges of length at least 2 the `bigvector` range
constructor copies from its own `begin()`/`end()` — reading the fresh block's
uninitialized `size_` (undefined behavior) — and never initializes the header,
so constructing from `[1,2]` does not produce a size-2 vector.  Length-1
ranges do work (second conjunct). -/
theorem C6_range_ctor_broken :
    fromRangeV cpId ([] : Heap Nat) [1, 2] = Except.error Err.ub
    ∧ fromRangeV cpId ([] : Heap Nat) [7] = Except.ok ([], Rep.single 7) :=
  ⟨rfl, rfl⟩

/-- Claim C7.  The claim says `a == b` evaluates without error for every
combination of representations, including heap-backed buffers holding no
block.  Making `a` a Shared vector with a null `store` (push two, pop two,
share with a copy, then `shrink_to_fit`, whose shared branch sets
`store = nullptr`) and `c` a Shared vector with a block, `a == c` dereferences
`a.store->size_` through the null pointer — undefined behavior. -/
theorem C7_eq_null_deref :
    (do
      let p ← pushSeq [1, 2]
      let q ← popBackV cpId p.1 p.2
      let q2 ← popBackV cpId q.1 q.2
      let c ← copyV cpId q2.1 q2.2
      let s ← shrinkV cpId c.1 q2.2
      let t ← pushSeqFrom s.1 Rep.empty [7, 8]
      eqV t.1 s.2 t.2) = Except.error Err.ub :=
  rfl

/-- Claim C8, counterexample.  The claim says `reserve(n)` is a no-op
whenever `n ≤ capacity()`.  On the Single vector `[5]` (capacity 1),
`reserve(1)` is not a no-op: the facade promotes through a fresh `bigvector`
(`push_back` gives it capacity 2, then `reserve(1)` on it returns early), so
the capacity afterwards is 2, not 1. -/
theorem C8_counterexample :
    (do
      let p ← pushSeq [5]
      let q ← reserveV cpId p.1 p.2 1
      capacityV q.1 q.2) = Except.ok 2 ∧ (2 : Nat) ≠ 1 :=
  ⟨rfl, by decide⟩

/-- Claim C9.  The claim says `shrink_to_fit` on a vector with `size() == 0`
releases the block entirely, leaving no block and `capacity() == 0`, with the
vector still usable.  On a solely owned Shared vector of size 0 and capacity
2 the `size() == 0, ref_count == 1` branch deletes the block but leaves
`store` dangling (the source omits `store = nullptr`), so `capacity()`
afterwards reads freed memory — undefined behavior, not 0. -/
theorem C9_shrink_dangling_store :
    (do
      let p ← pushSeq [1, 2]
      let q ← popBackV cpId p.1 p.2
      let q2 ← popBackV cpId q.1 q.2
      let r ← shrinkV cpId q2.1 q2.2
      capacityV r.1 r.2) = Except.error Err.ub :=
  rfl

/-- Claim C10.  As written, `clear()` on a Shared vector does not compile:
`bigvector::clear` calls `resize(0)` but `bigvector::resize` has no default
for its fill argument, so the call is ill-formed when instantiated.  This
theorem evaluates the evident intent (`resize(0, e)` reaches `shorten(0)` for
every `e`, modelled by `bvClear`) and confirms the claimed behavior for it:
on a Shared `[1,2]` the result has size 0 and capacity still 2, and on the
Single/Empty variants `clear` resets to the Empty variant (capacity 0). -/
theorem C10_clear_behavior :
    (do
      let p ← pushSeq [1, 2]
      let q ← clearV cpId p.1 p.2
      let s ← sizeV q.1 q.2
      let c ← capacityV q.1 q.2
      Except.ok (s, c)) = Except.ok (0, 2)
    ∧ clearV cpId ([] : Heap Nat) (Rep.single 5) = Except.ok ([], Rep.empty)
    ∧ clearV cpId ([] : Heap Nat) Rep.empty = Except.ok ([], Rep.empty) :=
  ⟨rfl, rfl, rfl⟩

theorem bindSharedOk {α : Type} (m : Except Err (Heap α × BV)) (r : Heap α × Rep α)
    (hr : (m >>= fun p => Except.ok (p.1, Rep.shared p.2)) = Except.ok r) :
    ∃ bw, r.2 = Rep.shared bw := by
  cases hm : m with
  | error e => rw [hm, bindErr] at hr; exact absurd hr (by simp)
  | ok p =>
    rw [hm, bindOk] at hr
    simp only [Except.ok.injEq] at hr
    exact ⟨p.2, by rw [← hr]⟩

/-- Claim C5, amended.  Once a vector is in the Shared representation,
`pop_back`, `erase`, `clear` and `resize` never demote it: whenever they
return normally the representation is still Shared.  `assign`, however,
replaces the representation wholesale with that of a vector freshly
constructed from the assigned range: an empty range yields Empty, a 1-element
range yields Single, and ranges of length at least 2 hit the broken range
constructor (undefined behavior, see C6), so they never return normally. -/
theorem C5_amended :
    (∀ (cp : Cp Nat) (h : Heap Nat) (bv : BV) (r : Heap Nat × Rep Nat),
      popBackV cp h (Rep.shared bv) = Except.ok r → ∃ bw, r.2 = Rep.shared bw)
    ∧ (∀ (cp : Cp Nat) (h : Heap Nat) (bv : BV) (l rr : Nat) (r : Heap Nat × Rep Nat),
      eraseV cp h (Rep.shared bv) l rr = Except.ok r → ∃ bw, r.2 = Rep.shared bw)
    ∧ (∀ (cp : Cp Nat) (h : Heap Nat) (bv : BV) (r : Heap Nat × Rep Nat),
      clearV cp h (Rep.shared bv) = Except.ok r → ∃ bw, r.2 = Rep.shared bw)
    ∧ (∀ (cp : Cp Nat) (h : Heap Nat) (bv : BV) (n x : Nat) (r : Heap Nat × Rep Nat),
      resizeV cp h (Rep.shared bv) n x = Except.ok r → ∃ bw, r.2 = Rep.shared bw)
    ∧ (∀ (cp : Cp Nat) (h : Heap Nat) (bv : BV) (r : Heap Nat × Rep Nat),
      assignV cp h (Rep.shared bv) [] = Except.ok r → r.2 = Rep.empty)
    ∧ (∀ (cp : Cp Nat) (h : Heap Nat) (bv : BV) (y : Nat) (r : Heap Nat × Rep Nat),
      assignV cp h (Rep.shared bv) [y] = Except.ok r → ∃ z, r.2 = Rep.single z)
    ∧ (∀ (cp : Cp Nat) (h : Heap Nat) (bv : BV) (xs : List Nat),
      2 ≤ xs.length → assignV cp h (Rep.shared bv) xs = Except.error Err.ub) := by
  refine ⟨?_, ?_, ?_, ?_, ?_, ?_, ?_⟩
  case _ =>
    intro cp h bv r hr
    simp only [popBackV] at hr
    exact bindSharedOk _ _ hr
  case _ =>
    intro cp h bv l rr r hr
    by_cases hlr : l = rr
    · simp only [eraseV, if_pos hlr] at hr
      simp only [Except.ok.injEq] at hr
      exact ⟨bv, by rw [← hr]⟩
    · simp only [eraseV, if_neg hlr] at hr
      exact bindSharedOk _ _ hr
  case _ =>
    intro cp h bv r hr
    simp only [clearV] at hr
    exact bindSharedOk _ _ hr
  case _ =>
    intro cp h bv n x r hr
    simp only [resizeV] at hr
    exact bindSharedOk _ _ hr
  case _ =>
    intro cp h bv r hr
    simp only [assignV, fromRangeV, bindOk] at hr
    cases hd : destroyBV h bv with
    | error e => rw [hd, bindErr] at hr; exact absurd hr (by simp)
    | ok h1 =>
      rw [hd, bindOk] at hr
      simp only [Except.ok.injEq] at hr
      rw [← hr]
  case _ =>
    intro cp h bv y r hr
    simp only [assignV, fromRangeV] at hr
    cases hcy : cp y with
    | none => rw [doCp, hcy] at hr; simp [bindErr] at hr
    | some z =>
      rw [doCp, hcy] at hr
      simp only [bindOk] at hr
      cases hd : destroyBV h bv with
      | error e => rw [hd, bindErr] at hr; exact absurd hr (by simp)
      | ok h1 =>
        rw [hd, bindOk] at hr
        cases hcz : cp z with
        | none => rw [doCp, hcz] at hr; simp [bindErr] at hr
        | some w =>
          rw [doCp, hcz] at hr
          simp only [bindOk, Except.ok.injEq] at hr
          exact ⟨w, by rw [← hr]⟩
  case _ =>
    intro cp h bv xs hlen
    match xs, hlen with
    | a :: b :: t, _ =>
      simp [assignV, fromRangeV, alloc, readSizeB, getBlk_middle, readField, bindOk, bindErr]

/-- Witness for `C5_amended`: each conjunct applied to the concrete Shared
vector `[1, 2]` (heap `hW`, bigvector `bvW`), with every hypothesis
discharged by evaluation. -/
theorem C5_amended_witness :
    (∃ bw, (Rep.shared (⟨some 0⟩ : BV) : Rep Nat) = Rep.shared bw)
    ∧ (∃ bw, (Rep.shared (⟨some 0⟩ : BV) : Rep Nat) = Rep.shared bw)
    ∧ (∃ bw, (Rep.shared (⟨some 0⟩ : BV) : Rep Nat) = Rep.shared bw)
    ∧ (∃ bw, (Rep.shared (⟨some 0⟩ : BV) : Rep Nat) = Rep.shared bw)
    ∧ (Rep.empty : Rep Nat) = Rep.empty
    ∧ (∃ z, (Rep.single 5 : Rep Nat) = Rep.single z)
    ∧ assignV cpId hW (Rep.shared bvW) [1, 2] = Except.error Err.ub :=
  ⟨C5_amended.1 cpId hW bvW
      ([some ⟨some 1, some 2, some 1, [some 1, none]⟩], Rep.shared ⟨some 0⟩) (by rfl),
    C5_amended.2.1 cpId hW bvW 0 1
      ([some ⟨some 1, some 2, some 1, [some 2, none]⟩], Rep.shared ⟨some 0⟩) (by rfl),
    C5_amended.2.2.1 cpId hW bvW
      ([some ⟨some 0, some 2, some 1, [none, none]⟩], Rep.shared ⟨some 0⟩) (by rfl),
    C5_amended.2.2.2.1 cpId hW bvW 1 0
      ([some ⟨some 1, some 2, some 1, [some 1, none]⟩], Rep.shared ⟨some 0⟩) (by rfl),
    C5_amended.2.2.2.2.1 cpId hW bvW ([none], Rep.empty) (by rfl),
    C5_amended.2.2.2.2.2.1 cpId hW bvW 5 ([none], Rep.single 5) (by rfl),
    C5_amended.2.2.2.2.2.2 cpId hW bvW [1, 2] (by decide)⟩

theorem readRangeS_map_some0 {α : Type} (f1 f2 f3 : Option Nat) (xs : List α)
    (rest : List (Option α)) :
    readRangeS ⟨f1, f2, f3, xs.map some ++ rest⟩ 0 xs.length = Except.ok xs := by
  simpa using readRangeS_map_some f1 f2 f3 xs [] rest

theorem writeRangeS_shape0 {α : Type} (f1 f2 f3 : Option Nat) (ys : List α) (k : Nat)
    (hk : ys.length ≤ k) :
    writeRangeS ⟨f1, f2, f3, List.replicate k none⟩ 0 ys
      = Except.ok ⟨f1, f2, f3, ys.map some ++ List.replicate (k - ys.length) none⟩ := by
  simpa using writeRangeS_shape f1 f2 f3 ys [] k hk

theorem readSizeB_middle {α : Type} (pre : Heap α) (s : Storage α) (post : Heap α) :
    readSizeB (pre ++ some s :: post) pre.length = readField s.sizeF := by
  simp [readSizeB, getBlk_middle, bindOk]

theorem readCapB_middle {α : Type} (pre : Heap α) (s : Storage α) (post : Heap α) :
    readCapB (pre ++ some s :: post) pre.length = readField s.capF := by
  simp [readCapB, getBlk_middle, bindOk]

theorem readRefB_middle {α : Type} (pre : Heap α) (s : Storage α) (post : Heap α) :
    readRefB (pre ++ some s :: post) pre.length = readField s.refF := by
  simp [readRefB, getBlk_middle, bindOk]

theorem setRefE_middle {α : Type} (pre : Heap α) (s : Storage α) (post : Heap α) (r : Nat) :
    setRefE (pre ++ some s :: post) pre.length r
      = Except.ok (pre ++ some ⟨s.sizeF, s.capF, some r, s.data⟩ :: post) := by
  simp [setRefE, getBlk_middle, setBlk_middle, bindOk]

theorem bvPushBack_null (h : Heap Nat) (y : Nat) :
    bvPushBack cpId h ⟨none⟩ y = Except.ok (h ++ [some (mkBlk [y] 2 1)], ⟨some h.length⟩) := by
  simp [bvPushBack, bvSize, bvCapacity, bindOk, alloc, bvReadAll, getBlk_middle,
    setBlk_middle, uCopy_id, writeRangeS, writeSlot, doCp, cpId, mkBlk]

theorem bvReserve_grow (pre post : Heap Nat) (xs : List Nat) (cap rc n : Nat)
    (hxs : xs.length ≤ cap) (hcn : cap < n) :
    bvReserve cpId (pre ++ some (mkBlk xs cap rc) :: post) ⟨some pre.length⟩ n
      = Except.ok
          ((pre ++
              (if rc = 1 then none
                else some ⟨some xs.length, some cap, some (rc - 1),
                  xs.map some ++ List.replicate (cap - xs.length) none⟩) :: post)
            ++ [some (mkBlk xs n 1)],
            ⟨some (pre ++ some (mkBlk xs cap rc) :: post).length⟩) := by
  have hcap : bvCapacity (pre ++ some (mkBlk xs cap rc) :: post) ⟨some pre.length⟩
      = Except.ok cap := by
    simp [bvCapacity, readCapB_middle, mkBlk, readField]
  have hassoc : (pre ++ some (mkBlk xs cap rc) :: post) ++ [some (⟨none, none, none,
      List.replicate n none⟩ : Storage Nat)]
      = pre ++ some (mkBlk xs cap rc) :: (post ++ [some ⟨none, none, none,
          List.replicate n none⟩]) := by
    simp
  simp only [bvReserve, hcap, bindOk, alloc]
  rw [if_neg (by omega)]
  rw [hassoc]
  have hsz : readSizeB (pre ++ some (mkBlk xs cap rc) :: (post ++ [some (⟨none, none, none,
      List.replicate n none⟩ : Storage Nat)])) pre.length = Except.ok xs.length := by
    simp [readSizeB_middle, mkBlk, readField]
  have hrd : bvReadAll (pre ++ some (mkBlk xs cap rc) :: (post ++ [some (⟨none, none, none,
      List.replicate n none⟩ : Storage Nat)])) ⟨some pre.length⟩ = Except.ok xs := by
    simp only [bvReadAll, hsz, bindOk, getBlk_middle]
    simpa [mkBlk] using readRangeS_map_some0 (some xs.length) (some cap) (some rc) xs
      (List.replicate (cap - xs.length) none)
  have hlen2 : (pre ++ some (mkBlk xs cap rc) :: (post ++ [some (⟨none, none, none,
      List.replicate n none⟩ : Storage Nat)]))[(pre ++ some (mkBlk xs cap rc) :: post).length]?
      = some (some ⟨none, none, none, List.replicate n none⟩) := by
    rw [← hassoc]
    exact list_get_append_len _ _ _
  have hget2 : getBlk (pre ++ some (mkBlk xs cap rc) :: (post ++ [some (⟨none, none, none,
      List.replicate n none⟩ : Storage Nat)])) (pre ++ some (mkBlk xs cap rc) :: post).length
      = Except.ok ⟨none, none, none, List.replicate n none⟩ := by
    simp only [getBlk, hlen2]
  have hwr : uCopy cpId (⟨none, none, none, List.replicate n none⟩ : Storage Nat) 0 xs
      = Except.ok ⟨none, none, none, xs.map some ++ List.replicate (n - xs.length) none⟩ := by
    rw [uCopy_id]
    exact writeRangeS_shape0 none none none xs n (by omega)
  have hrf : readRefB (pre ++ some (mkBlk xs cap rc) :: (post ++ [some (⟨none, none, none,
      List.replicate n none⟩ : Storage Nat)])) pre.length = Except.ok rc := by
    simp [readRefB_middle, mkBlk, readField]
  simp only [hrd, bindOk, hget2, hwr, hsz, hrf]
  by_cases hrc : rc = 1
  · simp only [if_pos hrc, hsz, bindOk, freeBlk_middle]
    have h1 : (pre ++ none :: (post ++ [some (⟨none, none, none,
        List.replicate n none⟩ : Storage Nat)]))
        = (pre ++ none :: post) ++ [some ⟨none, none, none, List.replicate n none⟩] := by
      simp
    have h2 : (pre ++ some (mkBlk xs cap rc) :: post).length
        = (pre ++ none :: post).length := by
      simp
    rw [h1, h2, setBlk_middle]
    simp [mkBlk]
  · simp only [if_neg hrc]
    rw [setRefE_middle, bindOk]
    have h1 : (pre ++ some (⟨(mkBlk xs cap rc).sizeF, (mkBlk xs cap rc).capF, some (rc - 1),
        (mkBlk xs cap rc).data⟩ : Storage Nat)
          :: (post ++ [some (⟨none, none, none, List.replicate n none⟩ : Storage Nat)]))
        = (pre ++ some (⟨(mkBlk xs cap rc).sizeF, (mkBlk xs cap rc).capF, some (rc - 1),
            (mkBlk xs cap rc).data⟩ : Storage Nat) :: post)
          ++ [some ⟨none, none, none, List.replicate n none⟩] := by
      simp
    have h2 : (pre ++ some (mkBlk xs cap rc) :: post).length
        = (pre ++ some (⟨(mkBlk xs cap rc).sizeF, (mkBlk xs cap rc).capF, some (rc - 1),
            (mkBlk xs cap rc).data⟩ : Storage Nat) :: post).length := by
      simp
    rw [h1, h2, setBlk_middle]
    simp [mkBlk]

theorem bvReserve_null (h : Heap Nat) (n : Nat) (hn : 1 ≤ n) :
    bvReserve cpId h ⟨none⟩ n = Except.ok (h ++ [some (mkBlk [] n 1)], ⟨some h.length⟩) := by
  have h0 : ¬ (n ≤ 0) := by omega
  simp [bvReserve, bvCapacity, bindOk, alloc, bvReadAll, getBlk_middle, setBlk_middle,
    uCopy_id, writeRangeS, mkBlk, h0]

theorem bvReserve_noop (pre post : Heap Nat) (s : Storage Nat) (c n : Nat)
    (hc : s.capF = some c) (hn : n ≤ c) :
    bvReserve cpId (pre ++ some s :: post) ⟨some pre.length⟩ n
      = Except.ok (pre ++ some s :: post, ⟨some pre.length⟩) := by
  simp only [bvReserve, bvCapacity, readCapB_middle, hc, readField, bindOk, if_pos hn]

theorem capSeq_concat (X : Heap Nat) (xs : List Nat) (n bIdx : Nat) (hb : bIdx = X.length) :
    (do
      let c ← capacityV (X ++ [some (mkBlk xs n 1)]) (Rep.shared ⟨some bIdx⟩)
      let s ← seqV (X ++ [some (mkBlk xs n 1)]) (Rep.shared ⟨some bIdx⟩)
      Except.ok (c, s)) = Except.ok (n, xs) := by
  subst hb
  have hcap : capacityV (X ++ [some (mkBlk xs n 1)]) (Rep.shared ⟨some X.length⟩)
      = Except.ok n := by
    simp [capacityV, bvCapacity, readCapB_middle, mkBlk, readField]
  have hseq : seqV (X ++ [some (mkBlk xs n 1)]) (Rep.shared ⟨some X.length⟩)
      = Except.ok xs := by
    simp only [seqV, bvReadAll]
    rw [show readSizeB (X ++ [some (mkBlk xs n 1)]) X.length = Except.ok xs.length from by
      simp [readSizeB_middle, mkBlk, readField]]
    rw [bindOk]
    rw [show getBlk (X ++ [some (mkBlk xs n 1)]) X.length = Except.ok (mkBlk xs n 1) from
      getBlk_middle X _ []]
    rw [bindOk]
    exact readRangeS_map_some0 _ _ _ xs _
  rw [hcap, bindOk, hseq, bindOk]

/-- Claim C8, amended.  `reserve(n)` is a no-op whenever `n ≤ capacity()` —
except for `reserve(1)` on a Single vector, which promotes to a heap block of
capacity 2 (contents and size unchanged).  When `n > capacity()` the result
has capacity exactly `max(capacity, n) = n`, with size and contents
unchanged. -/
theorem C8_amended :
    (∀ (h : Heap Nat) (bv : BV) (n c : Nat),
      capacityV h (Rep.shared bv) = Except.ok c → n ≤ c →
      reserveV cpId h (Rep.shared bv) n = Except.ok (h, Rep.shared bv))
    ∧ (∀ h : Heap Nat, reserveV cpId h Rep.empty 0 = Except.ok (h, Rep.empty))
    ∧ (∀ (h : Heap Nat) (y : Nat), reserveV cpId h (Rep.single y) 0 = Except.ok (h, Rep.single y))
    ∧ (∀ (h : Heap Nat) (y : Nat),
      (do
        let p ← reserveV cpId h (Rep.single y) 1
        let c ← capacityV p.1 p.2
        let s ← seqV p.1 p.2
        Except.ok (c, s)) = Except.ok (2, [y]))
    ∧ (∀ (pre post : Heap Nat) (xs : List Nat) (cap rc n : Nat),
      xs.length ≤ cap → cap < n →
      (do
        let p ← reserveV cpId (pre ++ some (mkBlk xs cap rc) :: post)
          (Rep.shared ⟨some pre.length⟩) n
        let c ← capacityV p.1 p.2
        let s ← seqV p.1 p.2
        Except.ok (c, s)) = Except.ok (n, xs))
    ∧ (∀ (h : Heap Nat) (n : Nat), 1 ≤ n →
      (do
        let p ← reserveV cpId h Rep.empty n
        let c ← capacityV p.1 p.2
        let s ← seqV p.1 p.2
        Except.ok (c, s)) = Except.ok (n, []))
    ∧ (∀ (h : Heap Nat) (y n : Nat), 2 ≤ n →
      (do
        let p ← reserveV cpId h (Rep.single y) n
        let c ← capacityV p.1 p.2
        let s ← seqV p.1 p.2
        Except.ok (c, s)) = Except.ok (n, [y])) := by
  refine ⟨?_, ?_, ?_, ?_, ?_, ?_, ?_⟩
  case _ =>
    intro h bv n c hc hn
    simp only [capacityV] at hc
    simp only [reserveV, bvReserve, hc, bindOk, if_pos hn]
  case _ =>
    intro h
    rfl
  case _ =>
    intro h y
    rfl
  case _ =>
    intro h y
    simp only [reserveV]
    rw [if_neg (by omega)]
    rw [bvPushBack_null, bindOk]
    rw [bvReserve_noop h [] (mkBlk [y] 2 1) 2 1 (by simp [mkBlk]) (by omega), bindOk]
    exact capSeq_concat h [y] 2 h.length rfl
  case _ =>
    intro pre post xs cap rc n hxs hcn
    simp only [reserveV]
    rw [bvReserve_grow pre post xs cap rc n hxs hcn, bindOk]
    exact capSeq_concat _ xs n _ (by by_cases hrc : rc = 1 <;> simp [hrc])
  case _ =>
    intro h n hn
    simp only [reserveV]
    rw [if_neg (by omega)]
    rw [bvReserve_null h n hn, bindOk]
    exact capSeq_concat h [] n h.length rfl
  case _ =>
    intro h y n hn
    simp only [reserveV]
    rw [if_neg (by omega)]
    rw [bvPushBack_null, bindOk]
    by_cases h2 : n = 2
    · subst h2
      rw [bvReserve_noop h [] (mkBlk [y] 2 1) 2 2 (by simp [mkBlk]) (by omega), bindOk]
      exact capSeq_concat h [y] 2 h.length rfl
    · rw [bvReserve_grow h [] [y] 2 1 n (by simp) (by omega), bindOk]
      exact capSeq_concat _ [y] n _ (by simp)

/-- Witness for `C8_amended`: the conjuncts with hypotheses applied at
concrete inputs — the Shared vector `[1, 2]` of `hW` (capacity 2) for the
no-op clause with `n = 1`, the shaped one-block heap holding `[1, 2]` at
capacity 2 for the growth clause with `n = 7`, and small concrete instances
of the remaining clauses. -/
theorem C8_amended_witness :
    reserveV cpId hW (Rep.shared bvW) 1 = Except.ok (hW, Rep.shared bvW)
    ∧ (do
      let p ← reserveV cpId ([] ++ some (mkBlk [1, 2] 2 1) :: ([] : Heap Nat))
        (Rep.shared ⟨some (List.length ([] : Heap Nat))⟩) 7
      let c ← capacityV p.1 p.2
      let s ← seqV p.1 p.2
      Except.ok (c, s)) = Except.ok (7, [1, 2])
    ∧ (do
      let p ← reserveV cpId ([] : Heap Nat) Rep.empty 3
      let c ← capacityV p.1 p.2
      let s ← seqV p.1 p.2
      Except.ok (c, s)) = Except.ok (3, [])
    ∧ (do
      let p ← reserveV cpId ([] : Heap Nat) (Rep.single 5) 4
      let c ← capacityV p.1 p.2
      let s ← seqV p.1 p.2
      Except.ok (c, s)) = Except.ok (4, [5]) :=
  ⟨C8_amended.1 hW bvW 1 2 (by rfl) (by decide),
    C8_amended.2.2.2.2.1 [] [] [1, 2] 2 1 7 (by decide) (by decide),
    C8_amended.2.2.2.2.2.1 [] 3 (by decide),
    C8_amended.2.2.2.2.2.2 [] 5 4 (by decide)⟩

theorem bvPushBack_full (pre post : Heap Nat) (xs : List Nat) (c v : Nat)
    (hc : 0 < c) (hfull : xs.length = c) :
    bvPushBack cpId (pre ++ some (mkBlk xs c 1) :: post) ⟨some pre.length⟩ v
      = Except.ok ((pre ++ none :: post) ++ [some (mkBlk (xs ++ [v]) (c * 2) 1)],
          ⟨some (pre ++ some (mkBlk xs c 1) :: post).length⟩) := by
  have hsz0 : bvSize (pre ++ some (mkBlk xs c 1) :: post) ⟨some pre.length⟩
      = Except.ok xs.length := by
    simp [bvSize, readSizeB_middle, mkBlk, readField]
  have hcap0 : bvCapacity (pre ++ some (mkBlk xs c 1) :: post) ⟨some pre.length⟩
      = Except.ok c := by
    simp [bvCapacity, readCapB_middle, mkBlk, readField]
  have hassoc : (pre ++ some (mkBlk xs c 1) :: post) ++ [some (⟨none, none, none,
      List.replicate (c * 2) none⟩ : Storage Nat)]
      = pre ++ some (mkBlk xs c 1) :: (post ++ [some ⟨none, none, none,
          List.replicate (c * 2) none⟩]) := by
    simp
  have hszE : readSizeB (pre ++ some (mkBlk xs c 1) :: (post ++ [some (⟨none, none, none,
      List.replicate (c * 2) none⟩ : Storage Nat)])) pre.length = Except.ok xs.length := by
    simp [readSizeB_middle, mkBlk, readField]
  have hrdE : bvReadAll (pre ++ some (mkBlk xs c 1) :: (post ++ [some (⟨none, none, none,
      List.replicate (c * 2) none⟩ : Storage Nat)])) ⟨some pre.length⟩ = Except.ok xs := by
    simp only [bvReadAll, hszE, bindOk, getBlk_middle]
    simpa [mkBlk] using readRangeS_map_some0 (some xs.length) (some c) (some 1) xs
      (List.replicate (c - xs.length) none)
  have hgetT : getBlk (pre ++ some (mkBlk xs c 1) :: (post ++ [some (⟨none, none, none,
      List.replicate (c * 2) none⟩ : Storage Nat)])) (pre ++ some (mkBlk xs c 1) :: post).length
      = Except.ok ⟨none, none, none, List.replicate (c * 2) none⟩ := by
    rw [← hassoc]
    simp only [getBlk, list_get_append_len]
  have hwr : uCopy cpId (⟨none, none, none, List.replicate (c * 2) none⟩ : Storage Nat) 0 xs
      = Except.ok ⟨none, none, none, xs.map some ++ List.replicate (c * 2 - xs.length) none⟩ := by
    rw [uCopy_id]
    exact writeRangeS_shape0 none none none xs (c * 2) (by omega)
  have hws : writeSlot (⟨none, none, none,
      xs.map some ++ List.replicate (c * 2 - xs.length) none⟩ : Storage Nat) xs.length v
      = Except.ok ⟨none, none, none,
          (xs ++ [v]).map some ++ List.replicate (c * 2 - xs.length - 1) none⟩ :=
    writeSlot_shape none none none xs (c * 2 - xs.length) (by omega) v
  have hrfE : readRefB (pre ++ some (mkBlk xs c 1) :: (post ++ [some (⟨none, none, none,
      List.replicate (c * 2) none⟩ : Storage Nat)])) pre.length = Except.ok 1 := by
    simp [readRefB_middle, mkBlk, readField]
  simp only [bvPushBack, hsz0, hcap0, bindOk]
  rw [if_pos hfull]
  simp only [bindOk, if_true]
  rw [if_pos hfull, if_pos hc]
  simp only [alloc]
  rw [hassoc]
  simp only [hrdE, bindOk, hgetT, hwr, doCp, cpId, hws, hszE, bindOk]
  have hsb : setBlk (pre ++ some (mkBlk xs c 1) :: (post ++ [some (⟨none, none, none,
      List.replicate (c * 2) none⟩ : Storage Nat)])) (pre ++ some (mkBlk xs c 1) :: post).length
      (⟨some (xs.length + 1), some (c * 2), some 1,
        (xs ++ [v]).map some ++ List.replicate (c * 2 - xs.length - 1) none⟩ : Storage Nat)
      = (pre ++ some (mkBlk xs c 1) :: post)
        ++ [some ⟨some (xs.length + 1), some (c * 2), some 1,
            (xs ++ [v]).map some ++ List.replicate (c * 2 - xs.length - 1) none⟩] := by
    rw [← hassoc]
    exact setBlk_middle _ _ _ _
  rw [hsb]
  have hassoc2 : (pre ++ some (mkBlk xs c 1) :: post)
      ++ [some (⟨some (xs.length + 1), some (c * 2), some 1,
          (xs ++ [v]).map some ++ List.replicate (c * 2 - xs.length - 1) none⟩ : Storage Nat)]
      = pre ++ some (mkBlk xs c 1) :: (post
        ++ [some ⟨some (xs.length + 1), some (c * 2), some 1,
            (xs ++ [v]).map some ++ List.replicate (c * 2 - xs.length - 1) none⟩]) := by
    simp
  rw [hassoc2]
  have hrf2 : readRefB (pre ++ some (mkBlk xs c 1) :: (post
      ++ [some (⟨some (xs.length + 1), some (c * 2), some 1,
          (xs ++ [v]).map some ++ List.replicate (c * 2 - xs.length - 1) none⟩ : Storage Nat)]))
      pre.length = Except.ok 1 := by
    simp [readRefB_middle, mkBlk, readField]
  have hsz2 : readSizeB (pre ++ some (mkBlk xs c 1) :: (post
      ++ [some (⟨some (xs.length + 1), some (c * 2), some 1,
          (xs ++ [v]).map some ++ List.replicate (c * 2 - xs.length - 1) none⟩ : Storage Nat)]))
      pre.length = Except.ok xs.length := by
    simp [readSizeB_middle, mkBlk, readField]
  simp only [hrf2, bindOk, if_pos rfl, hsz2, freeBlk_middle]
  have : (pre ++ none :: (post
      ++ [some (⟨some (xs.length + 1), some (c * 2), some 1,
          (xs ++ [v]).map some ++ List.replicate (c * 2 - xs.length - 1) none⟩ : Storage Nat)]))
      = (pre ++ none :: post) ++ [some ⟨some (xs.length + 1), some (c * 2), some 1,
          (xs ++ [v]).map some ++ List.replicate (c * 2 - xs.length - 1) none⟩] := by
    simp
  rw [this]
  simp [mkBlk, Nat.sub_sub]

theorem bvPushBack_room (pre post : Heap Nat) (xs : List Nat) (c v : Nat)
    (hroom : xs.length < c) :
    bvPushBack cpId (pre ++ some (mkBlk xs c 1) :: post) ⟨some pre.length⟩ v
      = Except.ok (pre ++ some (mkBlk (xs ++ [v]) c 1) :: post, ⟨some pre.length⟩) := by
  have hsz0 : bvSize (pre ++ some (mkBlk xs c 1) :: post) ⟨some pre.length⟩
      = Except.ok xs.length := by
    simp [bvSize, readSizeB_middle, mkBlk, readField]
  have hcap0 : bvCapacity (pre ++ some (mkBlk xs c 1) :: post) ⟨some pre.length⟩
      = Except.ok c := by
    simp [bvCapacity, readCapB_middle, mkBlk, readField]
  have hrf : readRefB (pre ++ some (mkBlk xs c 1) :: post) pre.length = Except.ok 1 := by
    simp [readRefB_middle, mkBlk, readField]
  have hws : writeSlot (mkBlk xs c 1) xs.length v
      = Except.ok ⟨some xs.length, some c, some 1,
          (xs ++ [v]).map some ++ List.replicate (c - xs.length - 1) none⟩ := by
    simpa [mkBlk] using writeSlot_shape (some xs.length) (some c) (some 1) xs
      (c - xs.length) (by omega) v
  simp only [bvPushBack, hsz0, hcap0, bindOk]
  rw [if_neg (by omega)]
  simp only [hrf, bindOk]
  simp only [getBlk_middle, bindOk, doCp, cpId, hws]
  norm_num
  rw [setBlk_middle]
  simp [mkBlk, Nat.sub_sub]

theorem pushes_shape : ∀ n : Nat, 2 ≤ n → ∃ (hd : Heap Nat) (c : Nat),
    pushes n = Except.ok (hd ++ [some (mkBlk (List.replicate n 0) c 1)],
      Rep.shared ⟨some hd.length⟩) ∧ n ≤ c ∧ 2 ≤ c := by
  intro n hn
  induction n with
  | zero => omega
  | succ m ih =>
    by_cases hm : 2 ≤ m
    · obtain ⟨hd, c, hp, hmc, hc2⟩ := ih hm
      have hstep : pushes (m + 1) = (do
          let p ← pushes m
          pushBackV cpId p.1 p.2 0) := rfl
      by_cases hfull : m = c
      · refine ⟨hd ++ [none], c * 2, ?_, by omega, by omega⟩
        rw [hstep, hp, bindOk]
        simp only [pushBackV]
        rw [bvPushBack_full hd [] (List.replicate m 0) c 0 (by omega) (by simpa using hfull)]
        rw [bindOk]
        have h1 : List.replicate m (0 : Nat) ++ [0] = List.replicate (m + 1) 0 :=
          (List.replicate_succ' m 0).symm
        have h2 : (hd ++ some (mkBlk (List.replicate m 0) c 1)
            :: ([] : Heap Nat)).length = (hd ++ [(none : Option (Storage Nat))]).length := by
          simp
        rw [h1, h2]
      · have hlt : m < c := by omega
        refine ⟨hd, c, ?_, by omega, by omega⟩
        rw [hstep, hp, bindOk]
        simp only [pushBackV]
        rw [bvPushBack_room hd [] (List.replicate m 0) c 0 (by simpa using hlt)]
        rw [bindOk]
        have h1 : List.replicate m (0 : Nat) ++ [0] = List.replicate (m + 1) 0 :=
          (List.replicate_succ' m 0).symm
        rw [h1]
    · have hm1 : m = 1 := by omega
      subst hm1
      exact ⟨[], 2, rfl, by omega, by omega⟩

/-- Claim C3, amended.  Starting from an empty vector, the capacity after
successive pushes changes only when the size has reached it: the first push
sets capacity 1 (the inline Single representation), the second sets 2
(promotion to the heap), and every later growth doubles the capacity
(`0 → 1 → 2 → 4 → 8 → …`); at every other push the capacity is unchanged. -/
theorem C3_amended : ∀ n : Nat,
    capAfter (n + 1) = capAfter n
    ∨ (capAfter n = Except.ok n
        ∧ capAfter (n + 1) = Except.ok (if n = 0 then 1 else 2 * n)) := by
  intro n
  by_cases h0 : n = 0
  · subst h0
    right
    exact ⟨rfl, rfl⟩
  by_cases h1 : n = 1
  · subst h1
    right
    exact ⟨rfl, rfl⟩
  have hn : 2 ≤ n := by omega
  obtain ⟨hd, c, hp, hnc, hc2⟩ := pushes_shape n hn
  have hcapn : capAfter n = Except.ok c := by
    rw [capAfter, hp, bindOk]
    simp [capacityV, bvCapacity, readCapB_middle, mkBlk, readField]
  have hstep : pushes (n + 1) = (do
      let p ← pushes n
      pushBackV cpId p.1 p.2 0) := rfl
  by_cases hfull : n = c
  · right
    subst hfull
    refine ⟨hcapn, ?_⟩
    rw [capAfter, hstep, hp]
    simp only [bindOk]
    simp only [pushBackV]
    rw [bvPushBack_full hd [] (List.replicate n 0) n 0 (by omega) (by simp)]
    simp only [bindOk]
    have h2 : (hd ++ some (mkBlk (List.replicate n 0) n 1)
        :: ([] : Heap Nat)).length = (hd ++ (none : Option (Storage Nat))
          :: ([] : Heap Nat)).length := by
      simp
    rw [h2]
    generalize hd ++ (none : Option (Storage Nat)) :: ([] : Heap Nat) = X
    simp [capacityV, bvCapacity, readCapB_middle, mkBlk, readField, if_neg h0, Nat.mul_comm]
  · left
    have hlt : n < c := by omega
    rw [capAfter, hstep, hp, hcapn]
    simp only [bindOk]
    simp only [pushBackV]
    rw [bvPushBack_room hd [] (List.replicate n 0) c 0 (by simpa using hlt)]
    simp only [bindOk]
    simp [capacityV, bvCapacity, readCapB_middle, mkBlk, readField]

end CowVec
